import Mathlib

/-!
Verification development for pdFetch, a Node.js tool that exports ServiceNow
knowledge-base articles to PDF files and keeps a local folder in sync with the
remote catalog.

The development is a shallow embedding of the repository's core modules:

* `sn_tools.js` — `getArticlesList`, `fetchArticles`, `getKBChanges`;
* `fs_tools.js` — `removeFolderContents` (glob-pattern driven deletion);
* `operation.js` — `resetWorkspace`, `doListingOnly`, `doListingWithChanges`,
  `doListingWithFiles`, `doChangesWithFiles`;
* `session.js` — `closeSession`;
* `config_tools.js` — `mergeData`, and the effective-configuration merge
  performed by `mainExec` in `main.js`.

The filesystem is modelled as a flat association table from absolute POSIX
path strings to file contents plus a list of existing directories.  Node's
`path.join` / `path.resolve` and the `glob` package's `glob.sync` are embedded
at the level of behavior the repository exercises:

* `path.join(a, b)` concatenates the segments of `a` and `b` (it never
  collapses a second absolute path: `path.join("/w", "/w/x")` is `"/w/w/x"`);
* `glob.sync(pattern, { cwd })` matches a relative pattern against paths
  relative to `cwd` and returns matches relative to `cwd`; an absolute pattern
  is matched against the filesystem absolutely, ignoring `cwd`, and the
  matches are returned as absolute path strings (glob versions 7 through 10
  agree on this);
* JavaScript call semantics: extra arguments beyond a function's declared
  parameters are ignored, and a function value has a `length` property equal
  to its declared parameter count.  Both facts matter because the repository
  calls `mergeData` (3 parameters) with 4 arguments, and calls
  `removeFolderContents(targetDir, $m)` so that the monitoring callback lands
  in the `patterns` parameter slot.

Environment-dependent and claim-irrelevant details are abstracted: the remote
Table API response is a parameter (`none` models a request failure), per
article PDF rendering success is a parameter, the `last_updated_on` timestamp
of the change file is omitted, and of each article record only the fields the
embedded logic reads (`sys_id`, `number`, `version.display_value`) are kept;
`short_description`, `kb_knowledge_base`, `sys_domain`, `sys_updated_on` and
`sys_updated_on_msecs` are carried through the JS code unread.
-/

namespace PdFetch

/-- One remote KB article as produced by `getArticlesList` in `sn_tools.js`.
`version_display_value` embeds `version.display_value`, the only part of the
`version` object the code reads. -/
structure Article where
  sys_id : String
  number : String
  version_display_value : String
deriving DecidableEq, Repr

/-- The `changes` object computed by `getKBChanges`: three buckets of article
`number` strings. -/
structure Changes where
  added : List String
  updated : List String
  removed : List String
deriving DecidableEq, Repr

/-- File contents, at the granularity the claims need: a JSON article list, a
JSON change report, a rendered PDF (tagged so that a stale PDF is
distinguishable from a re-rendered one), or opaque text. -/
inductive Content where
  | articles : List Article → Content
  | changes : Changes → Content
  | pdf : String → Content
  | text : String → Content
deriving DecidableEq, Repr

/-- A filesystem state: a table of files (path, content) and a list of
existing directories.  Paths are absolute POSIX strings. -/
structure FS where
  files : List (String × Content)
  dirs : List String
deriving DecidableEq, Repr

/-! ### Path handling (Node `path.join` / `path.resolve`) -/

/-- Splits a list of characters into slash-separated nonempty segments.  The
second argument accumulates the current segment in reverse. -/
def segsAux : List Char → List Char → List String
  | [], acc => if acc.isEmpty then [] else [String.mk acc.reverse]
  | c :: rest, acc =>
    if c = '/' then
      if acc.isEmpty then segsAux rest [] else String.mk acc.reverse :: segsAux rest []
    else segsAux rest (c :: acc)

/-- The slash-separated segments of a path string. -/
def segs (p : String) : List String := segsAux p.toList []

/-- Whether a path string is absolute (starts with a slash). -/
def isAbsolute (p : String) : Bool :=
  match p.toList with
  | '/' :: _ => true
  | _ => false

/-- Rebuilds a path string from segments; `abs` selects a leading slash. -/
def unsplit (abs : Bool) (l : List String) : String :=
  (if abs then "/" else "") ++ String.intercalate "/" l

/-- Node `path.join(a, b)`: concatenate the segments; absoluteness comes from
`a`.  In particular joining an absolute `b` onto `a` duplicates the prefix:
`pathJoin "/w" "/w/x" = "/w/w/x"`, exactly as Node behaves. -/
def pathJoin (a b : String) : String :=
  unsplit (isAbsolute a) (segs a ++ segs b)

/-- Node `path.resolve(a, b)` for the shapes the repository uses: if `b` is
absolute it wins, otherwise it is joined onto `a` (with `a` absolute). -/
def pathResolve (a b : String) : String :=
  if isAbsolute b then unsplit true (segs b) else pathJoin a b

/-- Whether the segment list `d` is a prefix of the segment list `s`. -/
def segStarts : List String → List String → Bool
  | [], _ => true
  | _ :: _, [] => false
  | a :: as, b :: bs => a == b && segStarts as bs

/-! ### Filesystem primitives (Node `fs`) -/

/-- Node `fs.existsSync` restricted to files: is there a file at `p`. -/
def fileExists (fs : FS) (p : String) : Bool :=
  fs.files.any (fun e => e.1 == p)

/-- Is there a directory at `p`. -/
def dirExists (fs : FS) (p : String) : Bool :=
  fs.dirs.any (fun d => d == p)

/-- Node `fs.existsSync`: a file or a directory exists at `p`. -/
def existsSync (fs : FS) (p : String) : Bool :=
  fileExists fs p || dirExists fs p

/-- Node `fs.readFile`, as an `Option` (`none` models the ENOENT throw). -/
def readFileFS (fs : FS) (p : String) : Option Content :=
  (fs.files.find? (fun e => e.1 == p)).map (fun e => e.2)

/-- Node `fs.writeFile`: create or overwrite the file at `p`. -/
def writeFileFS (fs : FS) (p : String) (c : Content) : FS :=
  { fs with files := fs.files.filter (fun e => e.1 != p) ++ [(p, c)] }

/-- Removes the file at `p` if present; no-op otherwise. -/
def removeFileFS (fs : FS) (p : String) : FS :=
  { fs with files := fs.files.filter (fun e => e.1 != p) }

/-- Node `fs.renameSync` (POSIX: an existing destination is replaced).  Its
only caller guards with `fs.existsSync`, so the missing-source throw is not
reachable and the missing-source case is the identity here. -/
def renameFileFS (fs : FS) (src dst : String) : FS :=
  match readFileFS fs src with
  | some c => writeFileFS (removeFileFS fs src) dst c
  | none => fs

/-- Node `fs.mkdirSync`. -/
def mkdirFS (fs : FS) (p : String) : FS :=
  { fs with dirs := fs.dirs ++ [p] }

/-- Is the path `q` equal to or underneath the directory `root`. -/
def inTree (root q : String) : Bool :=
  isAbsolute q == isAbsolute root && segStarts (segs root) (segs q)

/-- Removes the directory `p` and everything underneath it
(Node `fs.rm(p, { recursive: true })`). -/
def removeTreeFS (fs : FS) (p : String) : FS :=
  { files := fs.files.filter (fun e => !(inTree p e.1))
    dirs := fs.dirs.filter (fun d => !(inTree p d)) }

/-- First-occurrence deduplication with an explicit seen set; structural so
that the kernel can evaluate it. -/
def dedupFirstAux : List String → List String → List String
  | [], _ => []
  | x :: xs, seen =>
    if seen.any (fun y => y == x) then dedupFirstAux xs seen
    else x :: dedupFirstAux xs (x :: seen)

/-- First-occurrence deduplication, as JavaScript `Set` insertion order. -/
def dedupFirst (l : List String) : List String := dedupFirstAux l []

/-- The immediate child name of `p` inside directory `dir`, if `p` lies
underneath `dir`. -/
def childName (dir p : String) : Option String :=
  if isAbsolute dir == isAbsolute p
      && segStarts (segs dir) (segs p)
      && decide ((segs dir).length < (segs p).length) then
    (segs p)[(segs dir).length]?
  else none

/-- Node `fs.readdir`: the immediate children (files and directories) of
`dir`, deduplicated in first-appearance order. -/
def readdirFS (fs : FS) (dir : String) : List String :=
  dedupFirst ((fs.files.map (fun e => e.1) ++ fs.dirs).filterMap (childName dir))

/-! ### Glob matching (`glob.sync`) -/

/-- Matches a glob pattern (character list `p`) against a name (character list
`s`): a star matches any character run inside a segment, a question mark one
character, everything else literally.  The fuel argument makes the recursion
structural; one unit is consumed per step and each step shrinks
`p.length + s.length`, so `p.length + s.length + 1` units always suffice. -/
def matchChars : Nat → List Char → List Char → Bool
  | 0, _, _ => false
  | _ + 1, [], s => s.isEmpty
  | fuel + 1, '*' :: ps, s =>
    matchChars fuel ps s ||
      (match s with
       | [] => false
       | _ :: ss => matchChars fuel ('*' :: ps) ss)
  | fuel + 1, '?' :: ps, s =>
    (match s with
     | [] => false
     | _ :: ss => matchChars fuel ps ss)
  | fuel + 1, c :: ps, s =>
    (match s with
     | [] => false
     | d :: ss => c == d && matchChars fuel ps ss)

/-- Matches a single glob pattern segment against a single path segment. -/
def matchSeg (pat name : String) : Bool :=
  matchChars (pat.toList.length + name.toList.length + 1) pat.toList name.toList

/-- Matches a glob pattern, split into segments, against a path split into
segments; a star never crosses a slash. -/
def globMatchSegs : List String → List String → Bool
  | [], [] => true
  | p :: ps, s :: ss => matchSeg p s && globMatchSegs ps ss
  | _, _ => false

/-- The `glob` package's `glob.sync(pattern, { cwd })` over the modelled
filesystem.  A relative pattern is matched against paths underneath `cwd` and
the matches are returned relative to `cwd`; an absolute pattern is matched
against the filesystem absolutely (the `cwd` option does not apply) and the
matches are returned as absolute path strings.  Both files and directories
match.  glob's default alphabetical sort is not modelled: no claim below
depends on the order of matches. -/
def globSync (pattern cwd : String) (fs : FS) : List String :=
  let entries := fs.files.map (fun e => e.1) ++ fs.dirs
  if isAbsolute pattern then
    dedupFirst (entries.filter (fun p =>
      isAbsolute p && globMatchSegs (segs pattern) (segs p)))
  else
    dedupFirst (entries.filterMap (fun p =>
      if isAbsolute p == isAbsolute cwd && segStarts (segs cwd) (segs p) then
        let rel := (segs p).drop (segs cwd).length
        if globMatchSegs (segs pattern) rel then some (unsplit false rel) else none
      else none))

/-! ### `fs_tools.js`: `removeFolderContents` -/

/-- The value occupying the `patterns` parameter of `removeFolderContents`.
`operation.js` passes an array of pattern strings, but `fetchArticles` in
`sn_tools.js` calls `removeFolderContents(targetDir, $m)`, so the monitoring
callback — a JavaScript function value whose `length` property is its declared
parameter count — lands in this slot.  The embedding therefore keeps both
shapes. -/
inductive RFCPatterns where
  | strList : List String → RFCPatterns
  | jsFunction : Nat → RFCPatterns
deriving DecidableEq, Repr

/-- The deletion loop of `removeFolderContents`: for each matched entry the
code joins it back onto `folderPath`, calls `lstat`, and removes a directory
recursively or unlinks a file.  If `lstat` throws (no entry at the joined
path) the exception reaches the function's single `catch`, so the remaining
deletions are abandoned and the state reached so far is kept. -/
def deleteEntries (fs : FS) (folderPath : String) : List String → FS
  | [] => fs
  | f :: rest =>
    let filePath := pathJoin folderPath f
    if dirExists fs filePath then deleteEntries (removeTreeFS fs filePath) folderPath rest
    else if fileExists fs filePath then deleteEntries (removeFileFS fs filePath) folderPath rest
    else fs

/-- Concatenation of a list of lists (JS array `concat` / flat map). -/
def concatAll (l : List (List String)) : List String :=
  l.foldl (fun acc x => acc ++ x) []

/-- Embeds `removeFolderContents(folderPath, patterns, monitoringFn)` from
`fs_tools.js`.  The body is one `try` block: `readdir` first (its throw on a
missing folder is caught, leaving the state unchanged); then, when
`patterns && patterns.length > 0`, every nonempty pattern is passed to
`glob.sync` with `cwd: folderPath` and the deduplicated matches are deleted;
otherwise every child listed by `readdir` is deleted.  A JS function in the
`patterns` slot is truthy and its `length` is its arity, so with arity `> 0`
the call `patterns.filter(Boolean)` throws a `TypeError` that the `catch`
swallows (nothing is deleted), while with arity `0` the delete-everything
branch runs. -/
def removeFolderContents (fs : FS) (folderPath : String) (patterns : RFCPatterns) : FS :=
  if !dirExists fs folderPath then fs
  else
    match patterns with
    | .jsFunction arity =>
      if arity > 0 then fs
      else deleteEntries fs folderPath (readdirFS fs folderPath)
    | .strList pats =>
      if pats.length > 0 then
        let filesToDelete :=
          dedupFirst (concatAll ((pats.filter (fun s => !(s == ""))).map
            (fun pat => globSync pat folderPath fs)))
        deleteEntries fs folderPath filesToDelete
      else deleteEntries fs folderPath (readdirFS fs folderPath)

/-! ### `sn_tools.js`: remote listing, rendering, diffing -/

/-- Embeds `getArticlesList` from `sn_tools.js`.  The remote Table API call is the
parameter `remote`: `some articles` is a successful response (already mapped
to article records), `none` a request failure.  On success the records are
serialized to `targetFile` and returned; on failure the `catch` block only
logs, nothing is written, and the function returns `undefined` (here `none`).
A write failure would also only be logged. -/
def getArticlesList (remote : Option (List Article)) (targetFile : String) (fs : FS) :
    FS × Option (List Article) :=
  match remote with
  | some articles => (writeFileFS fs targetFile (.articles articles), some articles)
  | none => (fs, none)

/-- JavaScript `Map.prototype.set` on an entry list: an existing key keeps its
position and gets the new value, a new key is appended. -/
def jsMapSet (m : List (String × Article)) (k : String) (v : Article) :
    List (String × Article) :=
  if m.any (fun e => e.1 == k) then m.map (fun e => if e.1 == k then (k, v) else e)
  else m ++ [(k, v)]

/-- Embeds `new Map(list.map(a => [a.sys_id, a]))`: entries in first-insertion key
order, each key holding the last record inserted for it. -/
def jsMapOf (l : List Article) : List (String × Article) :=
  l.foldl (fun m a => jsMapSet m a.sys_id a) []

/-- JavaScript `Map.prototype.get` (composed with the `has` test where needed). -/
def jsMapFind (m : List (String × Article)) (k : String) : Option Article :=
  (m.find? (fun e => e.1 == k)).map (fun e => e.2)

/-- The value list of the JavaScript `Map` built from `l`: one record per
distinct `sys_id`, namely the last record bearing that id, listed in
first-appearance order of the ids. -/
def jsMapEntries (l : List Article) : List Article :=
  (jsMapOf l).map (fun e => e.2)

/-- The diff computed by the body of `getKBChanges`, as a function of the two
`Map`s:  iterating the current map, a key absent from the older map
contributes its record's `number` to `added` and a key present with a
different `version.display_value` contributes to `updated`; iterating the
older map, a key absent from the current map contributes to `removed`.  The
source pushes `added` and `updated` inside one `forEach`; splitting the pass
into one traversal per bucket leaves each bucket's contents and order
unchanged since every entry is pushed to at most one bucket.  The `else if`
branch (key present, compare version labels) is embedded with `Option.bind`:
on a present key it applies the version test, on an absent key it yields
nothing. -/
def getKBChangesCore (currArticles olderArticles : List (String × Article)) : Changes :=
  { added := currArticles.filterMap (fun e =>
      if (jsMapFind olderArticles e.1).isNone then some e.2.number else none)
    updated := currArticles.filterMap (fun e =>
      (jsMapFind olderArticles e.1).bind (fun o =>
        if e.2.version_display_value != o.version_display_value then some e.2.number
        else none))
    removed := olderArticles.filterMap (fun e =>
      if (jsMapFind currArticles e.1).isNone then some e.2.number else none) }

/-- The pure diff of `getKBChanges`: build the two maps keyed by `sys_id`,
then classify. -/
def getKBChangesPure (currList olderList : List Article) : Changes :=
  getKBChangesCore (jsMapOf currList) (jsMapOf olderList)

/-- Embeds `getKBChanges` from `sn_tools.js`: load and parse both list files (any
read or parse failure is caught, nothing is written and `null` is returned),
diff them, write the change file and return the report.  The
`last_updated_on` wall-clock timestamp is not modelled. -/
def getKBChanges (currListFile olderListFile targetChangesFile : String) (fs : FS) :
    FS × Option Changes :=
  match readFileFS fs currListFile, readFileFS fs olderListFile with
  | some (.articles currList), some (.articles olderList) =>
    let ch := getKBChangesPure currList olderList
    (writeFileFS fs targetChangesFile (.changes ch), some ch)
  | _, _ => (fs, none)

/-- Embeds `fetchArticles` from `sn_tools.js`.  Browser start-up and login have no
filesystem effect and are not modelled.  When `resetTarget` is set the source
calls `removeFolderContents(targetDir, $m)` — two arguments, so the
monitoring callback (arity `mArity`) occupies the `patterns` parameter; the
call is also not awaited, which is modelled as the remover completing before
the download loop.  Then each article number is rendered in order:
`renderOk n = true` writes `targetDir/n.pdf`, a failure is caught per article
and writes nothing. -/
def fetchArticles (articleNumbers : List String) (targetDir : String) (resetTarget : Bool)
    (mArity : Nat) (renderOk : String → Bool) (fs : FS) : FS :=
  let fs1 := if resetTarget then removeFolderContents fs targetDir (.jsFunction mArity) else fs
  articleNumbers.foldl
    (fun acc n =>
      if renderOk n then writeFileFS acc (pathJoin targetDir (n ++ ".pdf")) (.pdf ("render:" ++ n))
      else acc)
    fs1

/-! ### `operation.js`: the four operations -/

/-- Embeds `resetWorkspace`: clear the workspace, keeping the session lock file
(none of the four patterns matches it). -/
def resetWorkspace (fs : FS) (folderPath : String) : FS :=
  removeFolderContents fs folderPath (.strList ["PDFs", "*.json*", "*.pdf", "*.zip"])

/-- Embeds `doListingOnly`: reset the workspace, then download and persist a fresh
article list at `folderPath/targetFileName.json`. -/
def doListingOnly (folderPath targetFileName : String) (remote : Option (List Article))
    (fs : FS) : FS × Option (List Article) :=
  let fs1 := resetWorkspace fs folderPath
  let listFilePath := pathResolve folderPath (targetFileName ++ ".json")
  getArticlesList remote listFilePath fs1

/-- Embeds `doListingWithChanges`: if no primary list file exists, warn and return
`null`; otherwise rename the list file to its `.old` sibling, download a new
list, diff the two and persist the change report.  A remote failure leaves
`getArticlesList` writing nothing, after which `getKBChanges` fails to read
the (now vacant) primary path and returns `null` without writing. -/
def doListingWithChanges (folderPath listFileName changesFileName : String)
    (remote : Option (List Article)) (fs : FS) : FS × Option Changes :=
  let listFilePath := pathResolve folderPath (listFileName ++ ".json")
  if fileExists fs listFilePath then
    let oldListFilePath := listFilePath ++ ".old"
    let fs1 := renameFileFS fs listFilePath oldListFilePath
    let fs2 := (getArticlesList remote listFilePath fs1).1
    let changesFilePath := pathResolve folderPath (changesFileName ++ ".json")
    getKBChanges listFilePath oldListFilePath changesFilePath fs2
  else (fs, none)

/-- Embeds `doListingWithFiles`: run `doListingOnly`, ensure the `PDFs` subfolder
exists, then render every listed article into it (`resetTarget = false`).
When the listing failed, `articlesList` is `undefined` and the
`articlesList.map` call throws into the operation's `catch`, so the fetch
never runs — but the `PDFs` folder has already been ensured. -/
def doListingWithFiles (folderPath targetFileName : String) (remote : Option (List Article))
    (renderOk : String → Bool) (mArity : Nat) (fs : FS) : FS :=
  let r := doListingOnly folderPath targetFileName remote fs
  let pdfHome := pathJoin folderPath "PDFs"
  let fs1 := if !dirExists r.1 pdfHome then mkdirFS r.1 pdfHome else r.1
  match r.2 with
  | some arts => fetchArticles (arts.map (fun a => a.number)) pdfHome false mArity renderOk fs1
  | none => fs1

/-- Embeds `doChangesWithFiles`: if no primary list file exists, fall back to
`doListingWithFiles` and stop.  Otherwise run `doListingWithChanges`; given a
report, unless `newerOnly` is set, pass the removed and updated articles'
full PDF paths (joined onto the `PDFs` home) to `removeFolderContents` as
patterns against `folderPath`; then fetch the updated and added articles with
`resetTarget = newerOnly`. -/
def doChangesWithFiles (folderPath listFileName changesFileName : String) (newerOnly : Bool)
    (remote : Option (List Article)) (renderOk : String → Bool) (mArity : Nat) (fs : FS) : FS :=
  let listFilePath := pathResolve folderPath (listFileName ++ ".json")
  if !fileExists fs listFilePath then
    doListingWithFiles folderPath listFileName remote renderOk mArity fs
  else
    let r := doListingWithChanges folderPath listFileName changesFileName remote fs
    match r.2 with
    | none => r.1
    | some ch =>
      let pdfHome := pathJoin folderPath "PDFs"
      let fs1 :=
        if !newerOnly then
          let articlesToRemove := ch.removed ++ ch.updated
          if articlesToRemove.length > 0 then
            removeFolderContents r.1 folderPath
              (.strList (articlesToRemove.map (fun n => pathJoin pdfHome (n ++ ".pdf"))))
          else r.1
        else r.1
      let articlesToDownload := ch.updated ++ ch.added
      if articlesToDownload.length > 0 then
        fetchArticles articlesToDownload pdfHome newerOnly mArity renderOk fs1
      else fs1

/-! ### `session.js`: the advisory lock -/

/-- The lock file name from `session.js`. -/
def LOCK_FILE_NAME : String := "operation_in_progress.lock"

/-- Node `fs.unlinkSync`, which throws when there is no file to unlink. -/
def unlinkSyncFS (fs : FS) (p : String) : Except String FS :=
  if fileExists fs p then .ok (removeFileFS fs p) else .error "unlink failed"

/-- Embeds `closeSession` from `session.js`: if no lock entry exists, warn and
return; otherwise unlink the lock file. -/
def closeSession (fs : FS) (targetFolder : String) : Except String FS :=
  let lockFilePath := pathJoin targetFolder LOCK_FILE_NAME
  if !existsSync fs lockFilePath then .ok fs
  else unlinkSyncFS fs lockFilePath

/-! ### `config_tools.js` / `main.js`: the configuration merge -/

/-- A configuration object: a partial map from setting names to values
(`none` means the key is absent). -/
def Config : Type := String → Option String

/-- Embeds `mergeData(implicit, explicit, given)` from `config_tools.js`:
`{ ...implicit, ...explicit, ...given }`, later sets taking precedence. -/
def mergeData (implicit explicit given : Config) : Config :=
  fun k => ((given k).orElse (fun _ => explicit k)).orElse (fun _ => implicit k)

/-- JavaScript argument binding: parameter `i` of a call receives the `i`-th
argument of the argument list, or `undefined` (the empty configuration) when
fewer arguments were passed. -/
def jsArg (argList : List Config) (i : Nat) : Config :=
  (argList[i]?).getD (fun _ => none)

/-- A JavaScript call to `mergeData` with an arbitrary argument list: the
callee declares three parameters, so it reads the first three arguments and
any further argument is bound to no parameter. -/
def mergeDataCall (argList : List Config) : Config :=
  mergeData (jsArg argList 0) (jsArg argList 1) (jsArg argList 2)

/-- The effective configuration computed by `mainExec` in `main.js`:
`mergeData(appArgDefaults, defaultProfileData, profileData, args)` — a call
with four arguments.  This value is what `mainExec` then uses for
mandatory-argument validation and for selecting and running the operation. -/
def mainExecEffectiveConfig (appArgDefaults defaultProfileData profileData args : Config) :
    Config :=
  mergeDataCall [appArgDefaults, defaultProfileData, profileData, args]

/-- The last record in `l` whose `sys_id` is `k`, if any. -/
def lastRecordWith (l : List Article) (k : String) : Option Article :=
  l.foldl (fun acc a => if a.sys_id == k then some a else acc) none

/-! ### Lemmas about the JavaScript `Map` embedding -/

lemma jsMapOf_snoc (l : List Article) (a : Article) :
    jsMapOf (l ++ [a]) = jsMapSet (jsMapOf l) a.sys_id a := by
  unfold jsMapOf
  rw [List.foldl_append]
  rfl

lemma lastRecordWith_snoc (l : List Article) (a : Article) (k : String) :
    lastRecordWith (l ++ [a]) k = if a.sys_id == k then some a else lastRecordWith l k := by
  unfold lastRecordWith
  rw [List.foldl_append]
  rfl

lemma jsMapSet_keys_of_mem (m : List (String × Article)) (k : String) (v : Article)
    (h : m.any (fun e => e.1 == k) = true) :
    (jsMapSet m k v).map (fun e => e.1) = m.map (fun e => e.1) := by
  unfold jsMapSet
  rw [if_pos h, List.map_map]
  apply List.map_congr_left
  intro e _
  simp only [Function.comp_apply]
  by_cases hek : (e.1 == k) = true
  · rw [if_pos hek]
    exact (beq_iff_eq.mp hek).symm
  · rw [if_neg hek]

lemma jsMapSet_of_not_mem (m : List (String × Article)) (k : String) (v : Article)
    (h : m.any (fun e => e.1 == k) = false) :
    jsMapSet m k v = m ++ [(k, v)] := by
  unfold jsMapSet
  rw [if_neg]
  simp [h]

lemma mem_jsMapSet (m : List (String × Article)) (k : String) (v : Article) (e : String × Article)
    (he : e ∈ jsMapSet m k v) :
    e = (k, v) ∨ (e ∈ m ∧ (e.1 == k) = false) := by
  unfold jsMapSet at he
  by_cases h : m.any (fun x => x.1 == k) = true
  · rw [if_pos h] at he
    obtain ⟨x, hx, hxe⟩ := List.mem_map.mp he
    by_cases hxk : (x.1 == k) = true
    · left
      rw [← hxe, if_pos hxk]
    · right
      rw [← hxe, if_neg hxk]
      exact ⟨hx, by simpa using hxk⟩
  · rw [if_neg h] at he
    rcases List.mem_append.mp he with h1 | h2
    · right
      refine ⟨h1, ?_⟩
      have hall := List.any_eq_false.mp (Bool.eq_false_iff.mpr h)
      simpa using hall e h1
    · left
      simpa using h2

lemma jsMapOf_keyed (l : List Article) :
    ∀ e ∈ jsMapOf l, e.2.sys_id = e.1 := by
  induction l using List.reverseRecOn with
  | nil =>
    intro e he
    simp [jsMapOf] at he
  | append_singleton l a ih =>
    intro e he
    rw [jsMapOf_snoc] at he
    rcases mem_jsMapSet _ _ _ _ he with h1 | h2
    · rw [h1]
    · exact ih e h2.1

lemma jsMapOf_lastRecord (l : List Article) :
    ∀ e ∈ jsMapOf l, lastRecordWith l e.1 = some e.2 := by
  induction l using List.reverseRecOn with
  | nil =>
    intro e he
    simp [jsMapOf] at he
  | append_singleton l a ih =>
    intro e he
    rw [jsMapOf_snoc] at he
    rw [lastRecordWith_snoc]
    rcases mem_jsMapSet _ _ _ _ he with h1 | h2
    · rw [h1]
      simp
    · have hk : (a.sys_id == e.1) = false := by
        have := h2.2
        by_cases hae : a.sys_id = e.1
        · rw [hae] at this
          simp at this
        · simpa using hae
      rw [hk]
      simp only [Bool.false_eq_true, if_false]
      exact ih e h2.1

lemma jsMapOf_keys_nodup (l : List Article) :
    ((jsMapOf l).map (fun e => e.1)).Nodup := by
  induction l using List.reverseRecOn with
  | nil =>
    simp [jsMapOf]
  | append_singleton l a ih =>
    rw [jsMapOf_snoc]
    by_cases h : (jsMapOf l).any (fun e => e.1 == a.sys_id) = true
    · rwa [jsMapSet_keys_of_mem _ _ _ h]
    · have hfalse : (jsMapOf l).any (fun e => e.1 == a.sys_id) = false :=
        Bool.eq_false_iff.mpr h
      rw [jsMapSet_of_not_mem _ _ _ hfalse, List.map_append]
      rw [List.nodup_append]
      refine ⟨ih, by simp, ?_⟩
      intro x hx hx2
      simp at hx2
      obtain ⟨e, he, hke⟩ := List.mem_map.mp hx
      have := List.any_eq_false.mp hfalse e he
      rw [hx2] at hke
      exact this (by simpa using hke)

lemma jsMapOf_go (l : List Article) :
    ∀ m : List (String × Article),
      (∀ a ∈ l, m.any (fun e => e.1 == a.sys_id) = false) →
      ((l.map (fun a => a.sys_id)).Nodup) →
      l.foldl (fun m a => jsMapSet m a.sys_id a) m = m ++ l.map (fun a => (a.sys_id, a)) := by
  induction l with
  | nil =>
    intro m _ _
    simp
  | cons a t ih =>
    intro m hm hnd
    simp only [List.foldl_cons]
    rw [jsMapSet_of_not_mem _ _ _ (hm a (by simp))]
    rw [List.map_cons, List.nodup_cons] at hnd
    have step := ih (m ++ [(a.sys_id, a)]) ?_ hnd.2
    · rw [step, List.map_cons]
      simp
    · intro b hb
      rw [List.any_append]
      have h1 : m.any (fun e => e.1 == b.sys_id) = false := hm b (by simp [hb])
      have h2 : [(a.sys_id, a)].any (fun e => e.1 == b.sys_id) = false := by
        simp only [List.any_cons, List.any_nil, Bool.or_false]
        have : a.sys_id ≠ b.sys_id := by
          intro hcontra
          exact hnd.1 (by
            rw [hcontra]
            exact List.mem_map.mpr ⟨b, hb, rfl⟩)
        simpa using this
      rw [h1, h2]
      rfl

lemma jsMapOf_eq_of_nodup (l : List Article) (h : (l.map (fun a => a.sys_id)).Nodup) :
    jsMapOf l = l.map (fun a => (a.sys_id, a)) := by
  have := jsMapOf_go l [] (by intro a _; rfl) h
  simpa [jsMapOf] using this

lemma jsMapFind_pairs (l : List Article) (k : String) :
    jsMapFind (l.map (fun a => (a.sys_id, a))) k = l.find? (fun a => a.sys_id == k) := by
  unfold jsMapFind
  rw [List.find?_map]
  rw [Option.map_map]
  have : ((fun e : String × Article => e.2) ∘ fun a : Article => (a.sys_id, a)) = id := rfl
  rw [this, Option.map_id]
  rfl

lemma filterMap_ite {α β : Type} (p : α → Bool) (f : α → β) (l : List α) :
    l.filterMap (fun a => if p a then some (f a) else none) = (l.filter p).map f := by
  induction l with
  | nil => rfl
  | cons a t ih =>
    by_cases h : p a = true
    · simp [List.filterMap_cons, List.filter_cons, h, ih]
    · simp only [Bool.not_eq_true] at h
      simp [List.filterMap_cons, List.filter_cons, h, ih]

/-! ### Characterization of the diff buckets on snapshots with unique ids -/

/-- An article of the new snapshot whose identity is absent from the old
snapshot (the "added" condition). -/
def addedPred (old : List Article) (a : Article) : Bool :=
  (old.find? (fun b => b.sys_id == a.sys_id)).isNone

/-- An article of the new snapshot whose identity occurs in the old snapshot
with a different `version.display_value` (the "updated" condition — the
version label is the only field compared). -/
def updatedPred (old : List Article) (a : Article) : Bool :=
  (old.find? (fun b => b.sys_id == a.sys_id)).any
    (fun b => a.version_display_value != b.version_display_value)

lemma bind_ite_eq {α β : Type} (x : Option α) (p : α → Bool) (y : β) :
    (x.bind (fun o => if p o then some y else none)) = if x.any p then some y else none := by
  cases x with
  | none => rfl
  | some o =>
    by_cases h : p o = true
    · simp [Option.any, h]
    · simp only [Bool.not_eq_true] at h
      simp [Option.any, h]

/-- An article of the old snapshot whose identity is absent from the new
snapshot (the "removed" condition). -/
def removedPred (curr : List Article) (b : Article) : Bool :=
  (curr.find? (fun a => a.sys_id == b.sys_id)).isNone

lemma getKBChangesPure_eq_of_nodup (curr old : List Article)
    (hc : (curr.map (fun a => a.sys_id)).Nodup) (ho : (old.map (fun a => a.sys_id)).Nodup) :
    getKBChangesPure curr old =
      { added := (curr.filter (addedPred old)).map (fun a => a.number)
        updated := (curr.filter (updatedPred old)).map (fun a => a.number)
        removed := (old.filter (removedPred curr)).map (fun a => a.number) } := by
  unfold getKBChangesPure getKBChangesCore
  rw [jsMapOf_eq_of_nodup curr hc, jsMapOf_eq_of_nodup old ho]
  have hadded :
      (curr.map (fun a => (a.sys_id, a))).filterMap (fun e =>
          if (jsMapFind (old.map (fun a => (a.sys_id, a))) e.1).isNone then some e.2.number
          else none)
        = (curr.filter (addedPred old)).map (fun a => a.number) := by
    rw [List.filterMap_map]
    have hfun :
        ((fun e : String × Article =>
            if (jsMapFind (old.map (fun a => (a.sys_id, a))) e.1).isNone then some e.2.number
            else none) ∘ fun a : Article => (a.sys_id, a))
          = fun a : Article => if addedPred old a then some a.number else none := by
      funext a
      simp only [Function.comp_apply, jsMapFind_pairs, addedPred]
    rw [hfun, filterMap_ite]
  have hupdated :
      (curr.map (fun a => (a.sys_id, a))).filterMap (fun e =>
          (jsMapFind (old.map (fun a => (a.sys_id, a))) e.1).bind (fun o =>
            if e.2.version_display_value != o.version_display_value then some e.2.number
            else none))
        = (curr.filter (updatedPred old)).map (fun a => a.number) := by
    rw [List.filterMap_map]
    have hfun :
        ((fun e : String × Article =>
            (jsMapFind (old.map (fun a => (a.sys_id, a))) e.1).bind (fun o =>
              if e.2.version_display_value != o.version_display_value then some e.2.number
              else none)) ∘ fun a : Article => (a.sys_id, a))
          = fun a : Article => if updatedPred old a then some a.number else none := by
      funext a
      simp only [Function.comp_apply, jsMapFind_pairs, updatedPred]
      rw [bind_ite_eq]
    rw [hfun, filterMap_ite]
  have hremoved :
      (old.map (fun a => (a.sys_id, a))).filterMap (fun e =>
          if (jsMapFind (curr.map (fun a => (a.sys_id, a))) e.1).isNone then some e.2.number
          else none)
        = (old.filter (removedPred curr)).map (fun a => a.number) := by
    rw [List.filterMap_map]
    have hfun :
        ((fun e : String × Article =>
            if (jsMapFind (curr.map (fun a => (a.sys_id, a))) e.1).isNone then some e.2.number
            else none) ∘ fun a : Article => (a.sys_id, a))
          = fun a : Article => if removedPred curr a then some a.number else none := by
      funext a
      simp only [Function.comp_apply, jsMapFind_pairs, removedPred]
    rw [hfun, filterMap_ite]
  rw [hadded, hupdated, hremoved]

/-! ### Lemmas about `jsMapEntries` (duplicate-id inputs) -/

lemma jsMapEntries_ids (l : List Article) :
    (jsMapEntries l).map (fun a => a.sys_id) = (jsMapOf l).map (fun e => e.1) := by
  unfold jsMapEntries
  rw [List.map_map]
  exact List.map_congr_left (fun e he => jsMapOf_keyed l e he)

lemma jsMapEntries_ids_nodup (l : List Article) :
    ((jsMapEntries l).map (fun a => a.sys_id)).Nodup := by
  rw [jsMapEntries_ids]
  exact jsMapOf_keys_nodup l

lemma jsMapOf_jsMapEntries (l : List Article) :
    jsMapOf (jsMapEntries l) = jsMapOf l := by
  rw [jsMapOf_eq_of_nodup _ (jsMapEntries_ids_nodup l)]
  unfold jsMapEntries
  rw [List.map_map]
  have : (jsMapOf l).map ((fun a : Article => (a.sys_id, a)) ∘ fun e : String × Article => e.2)
      = (jsMapOf l).map (fun e => e) := by
    apply List.map_congr_left
    intro e he
    simp only [Function.comp_apply]
    rw [jsMapOf_keyed l e he]
  rw [this, List.map_id']

/-! ### Lemmas about the filesystem primitives -/

lemma find?_key_filter (l : List (String × Content)) (p q : String) (h : q ≠ p) :
    (l.filter (fun e => e.1 != p)).find? (fun e => e.1 == q)
      = l.find? (fun e => e.1 == q) := by
  induction l with
  | nil => rfl
  | cons e t ih =>
    simp only [List.filter_cons]
    by_cases hep : (e.1 != p) = true
    · rw [if_pos hep]
      by_cases heq : ((e.1 == q) = true)
      · simp only [List.find?_cons, heq]
      · have heq2 : (e.1 == q) = false := by simpa using heq
        simp only [List.find?_cons, heq2]
        exact ih
    · have hep2 : e.1 = p := by simpa using hep
      rw [if_neg hep]
      have heq2 : (e.1 == q) = false := by
        rw [hep2]
        exact beq_false_of_ne (Ne.symm h)
      simp only [List.find?_cons, heq2]
      exact ih

lemma find?_key_filter_self (l : List (String × Content)) (p : String) :
    (l.filter (fun e => e.1 != p)).find? (fun e => e.1 == p) = none := by
  rw [List.find?_eq_none]
  intro e he
  have := (List.mem_filter.mp he).2
  simp at this
  simpa using this

lemma readFile_writeFile_self (fs : FS) (p : String) (c : Content) :
    readFileFS (writeFileFS fs p c) p = some c := by
  unfold readFileFS writeFileFS
  simp only [List.find?_append, find?_key_filter_self]
  simp

lemma readFile_writeFile_other (fs : FS) (p q : String) (c : Content) (h : q ≠ p) :
    readFileFS (writeFileFS fs p c) q = readFileFS fs q := by
  unfold readFileFS writeFileFS
  simp only [List.find?_append, find?_key_filter _ _ _ h]
  cases hf : fs.files.find? (fun e => e.1 == q) with
  | some e => simp [Option.or]
  | none =>
    simp only [Option.or]
    have hpq : ((p : String) == q) = false := beq_false_of_ne (Ne.symm h)
    simp only [List.find?_cons, hpq]
    simp

lemma readFile_removeFile_self (fs : FS) (p : String) :
    readFileFS (removeFileFS fs p) p = none := by
  unfold readFileFS removeFileFS
  simp only [find?_key_filter_self]
  rfl

lemma fileExists_eq_isSome (fs : FS) (p : String) :
    fileExists fs p = (readFileFS fs p).isSome := by
  unfold fileExists readFileFS
  cases hf : fs.files.find? (fun e => e.1 == p) with
  | some e =>
    simp only [Option.map_some', Option.isSome_some]
    rw [List.any_eq_true]
    refine ⟨e, List.mem_of_find?_eq_some hf, ?_⟩
    exact List.find?_some (p := fun e : String × Content => e.1 == p) hf
  | none =>
    simp only [Option.map_none', Option.isSome_none]
    rw [List.any_eq_false]
    exact List.find?_eq_none.mp hf

lemma fileExists_removeFileFS_self (fs : FS) (p : String) :
    fileExists (removeFileFS fs p) p = false := by
  rw [fileExists_eq_isSome, readFile_removeFile_self]
  rfl

lemma dirExists_removeFileFS (fs : FS) (p q : String) :
    dirExists (removeFileFS fs p) q = dirExists fs q := rfl

lemma removeFileFS_of_not_exists (fs : FS) (p : String) (h : fileExists fs p = false) :
    removeFileFS fs p = fs := by
  unfold removeFileFS
  have hall := List.any_eq_false.mp h
  have : fs.files.filter (fun e => e.1 != p) = fs.files := by
    rw [List.filter_eq_self]
    intro e he
    simpa using hall e he
  rw [this]

lemma string_ne_append_old (p : String) : p ≠ p ++ ".old" := by
  intro h
  have := congrArg String.length h
  rw [String.length_append] at this
  have hlen : (".old").length = 4 := rfl
  omega

/-! ## Claims -/

/-- C4.  On a pair of snapshots each with unique identities, `getKBChanges`
classifies as added exactly the new-snapshot articles whose identity is
absent from the old snapshot, as updated exactly those present in both whose
`version.display_value` differs (the version label being the sole signal:
`updatedPred` inspects nothing else), and as removed exactly the old-snapshot
articles absent from the new one — each bucket listing the articles'
`number` values, and nothing else being classified. -/
theorem getKBChangesClassification (curr old : List Article)
    (hc : (curr.map (fun a => a.sys_id)).Nodup)
    (ho : (old.map (fun a => a.sys_id)).Nodup) :
    (getKBChangesPure curr old).added
        = (curr.filter (addedPred old)).map (fun a => a.number)
    ∧ (getKBChangesPure curr old).updated
        = (curr.filter (updatedPred old)).map (fun a => a.number)
    ∧ (getKBChangesPure curr old).removed
        = (old.filter (removedPred curr)).map (fun a => a.number) := by
  rw [getKBChangesPure_eq_of_nodup curr old hc ho]
  exact ⟨rfl, rfl, rfl⟩

/-- Witness for C4 at a concrete pair of snapshots. -/
theorem getKBChangesClassificationWitness :
    (([⟨"i1", "KB1", "v2"⟩, ⟨"i3", "KB3", "v1"⟩].map
        (fun a : Article => a.sys_id)).Nodup)
    ∧ (([⟨"i1", "KB1", "v1"⟩, ⟨"i2", "KB2", "v1"⟩].map
        (fun a : Article => a.sys_id)).Nodup)
    ∧ ((getKBChangesPure [⟨"i1", "KB1", "v2"⟩, ⟨"i3", "KB3", "v1"⟩]
          [⟨"i1", "KB1", "v1"⟩, ⟨"i2", "KB2", "v1"⟩]).added
        = (([⟨"i1", "KB1", "v2"⟩, ⟨"i3", "KB3", "v1"⟩] :
            List Article).filter (addedPred [⟨"i1", "KB1", "v1"⟩, ⟨"i2", "KB2", "v1"⟩])).map
            (fun a => a.number)
      ∧ (getKBChangesPure [⟨"i1", "KB1", "v2"⟩, ⟨"i3", "KB3", "v1"⟩]
          [⟨"i1", "KB1", "v1"⟩, ⟨"i2", "KB2", "v1"⟩]).updated
        = (([⟨"i1", "KB1", "v2"⟩, ⟨"i3", "KB3", "v1"⟩] :
            List Article).filter (updatedPred [⟨"i1", "KB1", "v1"⟩, ⟨"i2", "KB2", "v1"⟩])).map
            (fun a => a.number)
      ∧ (getKBChangesPure [⟨"i1", "KB1", "v2"⟩, ⟨"i3", "KB3", "v1"⟩]
          [⟨"i1", "KB1", "v1"⟩, ⟨"i2", "KB2", "v1"⟩]).removed
        = (([⟨"i1", "KB1", "v1"⟩, ⟨"i2", "KB2", "v1"⟩] :
            List Article).filter (removedPred [⟨"i1", "KB1", "v2"⟩, ⟨"i3", "KB3", "v1"⟩])).map
            (fun a => a.number)) :=
  ⟨by decide, by decide,
    getKBChangesClassification
      [⟨"i1", "KB1", "v2"⟩, ⟨"i3", "KB3", "v1"⟩]
      [⟨"i1", "KB1", "v1"⟩, ⟨"i2", "KB2", "v1"⟩] (by decide) (by decide)⟩

/-- C5 counterexample.  Two snapshots with unique identities but with the
same `number` ("N") on different identities: the number lands in both the
added and the removed bucket, so the buckets are not pairwise disjoint as the
claim states. -/
theorem changeBucketsShareNumberOnCollision :
    (([⟨"idB", "N", "1"⟩] : List Article).map (fun a => a.sys_id)).Nodup
    ∧ (([⟨"idA", "N", "1"⟩] : List Article).map (fun a => a.sys_id)).Nodup
    ∧ "N" ∈ (getKBChangesPure [⟨"idB", "N", "1"⟩] [⟨"idA", "N", "1"⟩]).added
    ∧ "N" ∈ (getKBChangesPure [⟨"idB", "N", "1"⟩] [⟨"idA", "N", "1"⟩]).removed := by
  decide

/-- C5, amended.  On snapshots with unique identities whose `number`
assignment is consistent with identities (equal numbers imply equal
identities across both snapshots), the added, updated and removed buckets of
`getKBChanges` are pairwise disjoint, and every identity on which the
snapshots differ — newly present, present with a changed version label, or no
longer present — contributes its `number` to the corresponding bucket (hence,
with the disjointness, to exactly one bucket). -/
theorem changeBucketsDisjointOfInjectiveNumbers (curr old : List Article)
    (hc : (curr.map (fun a => a.sys_id)).Nodup)
    (ho : (old.map (fun a => a.sys_id)).Nodup)
    (hinj : ∀ a ∈ curr ++ old, ∀ b ∈ curr ++ old, a.number = b.number → a.sys_id = b.sys_id) :
    (∀ n, n ∈ (getKBChangesPure curr old).added → n ∉ (getKBChangesPure curr old).updated)
    ∧ (∀ n, n ∈ (getKBChangesPure curr old).added → n ∉ (getKBChangesPure curr old).removed)
    ∧ (∀ n, n ∈ (getKBChangesPure curr old).updated → n ∉ (getKBChangesPure curr old).removed)
    ∧ (∀ a ∈ curr, addedPred old a = true → a.number ∈ (getKBChangesPure curr old).added)
    ∧ (∀ a ∈ curr, updatedPred old a = true → a.number ∈ (getKBChangesPure curr old).updated)
    ∧ (∀ a ∈ old, removedPred curr a = true → a.number ∈ (getKBChangesPure curr old).removed) := by
  have hch := getKBChangesPure_eq_of_nodup curr old hc ho
  rw [hch]
  simp only []
  refine ⟨?_, ?_, ?_, ?_, ?_, ?_⟩
  · intro n hn hn2
    obtain ⟨a, hamem, han⟩ := List.mem_map.mp hn
    obtain ⟨c, hcmem, hcn⟩ := List.mem_map.mp hn2
    obtain ⟨ha, hapred⟩ := List.mem_filter.mp hamem
    obtain ⟨hcm, hcpred⟩ := List.mem_filter.mp hcmem
    have hid : a.sys_id = c.sys_id :=
      hinj a (List.mem_append_left _ ha) c (List.mem_append_left _ hcm)
        (by rw [han, hcn])
    have hac : a = c := List.inj_on_of_nodup_map hc ha hcm hid
    rw [← hac] at hcpred
    unfold addedPred at hapred
    unfold updatedPred at hcpred
    rw [Option.isNone_iff_eq_none.mp hapred] at hcpred
    simp [Option.any] at hcpred
  · intro n hn hn2
    obtain ⟨a, hamem, han⟩ := List.mem_map.mp hn
    obtain ⟨b, hbmem, hbn⟩ := List.mem_map.mp hn2
    obtain ⟨ha, hapred⟩ := List.mem_filter.mp hamem
    obtain ⟨hb, hbpred⟩ := List.mem_filter.mp hbmem
    have hid : a.sys_id = b.sys_id :=
      hinj a (List.mem_append_left _ ha) b (List.mem_append_right _ hb)
        (by rw [han, hbn])
    unfold removedPred at hbpred
    have hnone := Option.isNone_iff_eq_none.mp hbpred
    have := List.find?_eq_none.mp hnone a ha
    simp at this
    exact this hid
  · intro n hn hn2
    obtain ⟨a, hamem, han⟩ := List.mem_map.mp hn
    obtain ⟨b, hbmem, hbn⟩ := List.mem_map.mp hn2
    obtain ⟨ha, _⟩ := List.mem_filter.mp hamem
    obtain ⟨hb, hbpred⟩ := List.mem_filter.mp hbmem
    have hid : a.sys_id = b.sys_id :=
      hinj a (List.mem_append_left _ ha) b (List.mem_append_right _ hb)
        (by rw [han, hbn])
    unfold removedPred at hbpred
    have hnone := Option.isNone_iff_eq_none.mp hbpred
    have := List.find?_eq_none.mp hnone a ha
    simp at this
    exact this hid
  · intro a ha hpred
    exact List.mem_map.mpr ⟨a, List.mem_filter.mpr ⟨ha, hpred⟩, rfl⟩
  · intro a ha hpred
    exact List.mem_map.mpr ⟨a, List.mem_filter.mpr ⟨ha, hpred⟩, rfl⟩
  · intro a ha hpred
    exact List.mem_map.mpr ⟨a, List.mem_filter.mpr ⟨ha, hpred⟩, rfl⟩

/-- Witness for the amended C5 at a concrete pair of snapshots. -/
theorem changeBucketsDisjointOfInjectiveNumbersWitness :
    (([⟨"i1", "KB1", "v2"⟩, ⟨"i3", "KB3", "v1"⟩] : List Article).map
        (fun a => a.sys_id)).Nodup
    ∧ (([⟨"i1", "KB1", "v1"⟩, ⟨"i2", "KB2", "v1"⟩] : List Article).map
        (fun a => a.sys_id)).Nodup
    ∧ (∀ a ∈ ([⟨"i1", "KB1", "v2"⟩, ⟨"i3", "KB3", "v1"⟩] : List Article)
          ++ [⟨"i1", "KB1", "v1"⟩, ⟨"i2", "KB2", "v1"⟩],
        ∀ b ∈ ([⟨"i1", "KB1", "v2"⟩, ⟨"i3", "KB3", "v1"⟩] : List Article)
          ++ [⟨"i1", "KB1", "v1"⟩, ⟨"i2", "KB2", "v1"⟩],
        a.number = b.number → a.sys_id = b.sys_id)
    ∧ (∀ n, n ∈ (getKBChangesPure [⟨"i1", "KB1", "v2"⟩, ⟨"i3", "KB3", "v1"⟩]
          [⟨"i1", "KB1", "v1"⟩, ⟨"i2", "KB2", "v1"⟩]).added
        → n ∉ (getKBChangesPure [⟨"i1", "KB1", "v2"⟩, ⟨"i3", "KB3", "v1"⟩]
          [⟨"i1", "KB1", "v1"⟩, ⟨"i2", "KB2", "v1"⟩]).updated) :=
  ⟨by decide, by decide, by decide,
    (changeBucketsDisjointOfInjectiveNumbers
      [⟨"i1", "KB1", "v2"⟩, ⟨"i3", "KB3", "v1"⟩]
      [⟨"i1", "KB1", "v1"⟩, ⟨"i2", "KB2", "v1"⟩]
      (by decide) (by decide) (by decide)).1⟩

/-- C9.  On arbitrary snapshot lists — including lists with repeated
`sys_id`s — `getKBChanges` computes the same report as on the per-id
deduplicated lists (`jsMapEntries`, the JavaScript `Map` contents), those
deduplicated lists carry pairwise distinct ids (so each bucket holds at most
one entry per distinct id per list), and every record the map retains is the
last record bearing its id in the original list. -/
theorem getKBChangesUsesLastRecordPerId (curr old : List Article) :
    getKBChangesPure curr old = getKBChangesPure (jsMapEntries curr) (jsMapEntries old)
    ∧ ((jsMapEntries curr).map (fun a => a.sys_id)).Nodup
    ∧ ((jsMapEntries old).map (fun a => a.sys_id)).Nodup
    ∧ (jsMapEntries curr).map (fun a => lastRecordWith curr a.sys_id)
        = (jsMapEntries curr).map some
    ∧ (jsMapEntries old).map (fun a => lastRecordWith old a.sys_id)
        = (jsMapEntries old).map some := by
  refine ⟨?_, jsMapEntries_ids_nodup curr, jsMapEntries_ids_nodup old, ?_, ?_⟩
  · unfold getKBChangesPure
    rw [jsMapOf_jsMapEntries, jsMapOf_jsMapEntries]
  · apply List.map_congr_left
    intro a ha
    have ha2 : a ∈ (jsMapOf curr).map (fun e => e.2) := by
      unfold jsMapEntries at ha
      exact ha
    obtain ⟨e, he, hea⟩ := List.mem_map.mp ha2
    rw [← hea, jsMapOf_keyed curr e he]
    exact jsMapOf_lastRecord curr e he
  · apply List.map_congr_left
    intro a ha
    have ha2 : a ∈ (jsMapOf old).map (fun e => e.2) := by
      unfold jsMapEntries at ha
      exact ha
    obtain ⟨e, he, hea⟩ := List.mem_map.mp ha2
    rw [← hea, jsMapOf_keyed old e he]
    exact jsMapOf_lastRecord old e he

/-- C6.  With no primary snapshot file present, `doListingWithChanges`
returns the null sentinel with the filesystem untouched (so nothing is
deleted), and `doChangesWithFiles` performs exactly what `doListingWithFiles`
performs on the same state (full population: listing, then rendering every
article) and stops. -/
theorem firstRunFallback (fs : FS) (folderPath listFileName changesFileName : String)
    (remote : Option (List Article)) (renderOk : String → Bool) (mArity : Nat)
    (newerOnly : Bool)
    (h : fileExists fs (pathResolve folderPath (listFileName ++ ".json")) = false) :
    doListingWithChanges folderPath listFileName changesFileName remote fs = (fs, none)
    ∧ doChangesWithFiles folderPath listFileName changesFileName newerOnly remote renderOk
        mArity fs
      = doListingWithFiles folderPath listFileName remote renderOk mArity fs := by
  constructor
  · unfold doListingWithChanges
    rw [if_neg]
    rw [h]
    exact Bool.false_ne_true
  · unfold doChangesWithFiles
    rw [if_pos]
    rw [h]
    rfl

/-- Witness for C6 at a concrete state with no snapshot file. -/
theorem firstRunFallbackWitness :
    fileExists (FS.mk [] ["/w"]) (pathResolve "/w" ("file_list" ++ ".json")) = false
    ∧ (doListingWithChanges "/w" "file_list" "file_changes"
          (some [⟨"i1", "KB1", "v1"⟩]) (FS.mk [] ["/w"]) = (FS.mk [] ["/w"], none)
      ∧ doChangesWithFiles "/w" "file_list" "file_changes" false
          (some [⟨"i1", "KB1", "v1"⟩]) (fun _ => true) 1 (FS.mk [] ["/w"])
        = doListingWithFiles "/w" "file_list" (some [⟨"i1", "KB1", "v1"⟩])
            (fun _ => true) 1 (FS.mk [] ["/w"])) :=
  ⟨by decide,
    firstRunFallback (FS.mk [] ["/w"]) "/w" "file_list" "file_changes"
      (some [⟨"i1", "KB1", "v1"⟩]) (fun _ => true) 1 false (by decide)⟩

/-- C7 counterexample.  A change-tracking run whose remote fetch fails: the
snapshot existed at its original path beforehand, but afterwards no file is
loadable at that path any more — the content survives only at the rotated
`.old` sibling, because the rotation precedes the fetch and is not rolled
back.  This refutes the claim that the snapshot stays loadable at its
original path. -/
theorem failedFetchLeavesNoSnapshotAtOriginalPath :
    fileExists (FS.mk [("/work/file_list.json", .articles [⟨"id1", "KB1", "v1"⟩])] ["/work"])
        "/work/file_list.json" = true
    ∧ fileExists
        (doListingWithChanges "/work" "file_list" "file_changes" none
          (FS.mk [("/work/file_list.json", .articles [⟨"id1", "KB1", "v1"⟩])] ["/work"])).1
        "/work/file_list.json" = false
    ∧ readFileFS
        (doListingWithChanges "/work" "file_list" "file_changes" none
          (FS.mk [("/work/file_list.json", .articles [⟨"id1", "KB1", "v1"⟩])] ["/work"])).1
        "/work/file_list.json.old"
      = some (.articles [⟨"id1", "KB1", "v1"⟩]) := by
  decide

/-- C7, amended.  A change-tracking run whose remote fetch fails stops with
the null report and changes nothing except the snapshot rotation already
performed: no diff is written and nothing is rendered; the previously
persisted snapshot's content survives un-truncated, but at the rotated
sibling path `<original>.old` — the original path is left vacant. -/
theorem failedFetchPreservesSnapshotAtRotatedPath (fs : FS)
    (folderPath listFileName changesFileName : String)
    (h : fileExists fs (pathResolve folderPath (listFileName ++ ".json")) = true) :
    doListingWithChanges folderPath listFileName changesFileName none fs
      = (renameFileFS fs (pathResolve folderPath (listFileName ++ ".json"))
          (pathResolve folderPath (listFileName ++ ".json") ++ ".old"), none)
    ∧ readFileFS
        (renameFileFS fs (pathResolve folderPath (listFileName ++ ".json"))
          (pathResolve folderPath (listFileName ++ ".json") ++ ".old"))
        (pathResolve folderPath (listFileName ++ ".json") ++ ".old")
      = readFileFS fs (pathResolve folderPath (listFileName ++ ".json"))
    ∧ fileExists
        (renameFileFS fs (pathResolve folderPath (listFileName ++ ".json"))
          (pathResolve folderPath (listFileName ++ ".json") ++ ".old"))
        (pathResolve folderPath (listFileName ++ ".json")) = false := by
  set p := pathResolve folderPath (listFileName ++ ".json") with hp
  have hsome : (readFileFS fs p).isSome = true := by
    rw [← fileExists_eq_isSome]
    exact h
  obtain ⟨c, hc⟩ := Option.isSome_iff_exists.mp hsome
  have hrn : renameFileFS fs p (p ++ ".old") = writeFileFS (removeFileFS fs p) (p ++ ".old") c := by
    unfold renameFileFS
    rw [hc]
  have hne : p ≠ p ++ ".old" := string_ne_append_old p
  have hreadp : readFileFS (renameFileFS fs p (p ++ ".old")) p = none := by
    rw [hrn, readFile_writeFile_other _ _ _ _ hne, readFile_removeFile_self]
  refine ⟨?_, ?_, ?_⟩
  · unfold doListingWithChanges
    rw [← hp, if_pos h]
    unfold getArticlesList getKBChanges
    dsimp only
    rw [hreadp]
  · rw [hrn, readFile_writeFile_self, hc]
  · rw [fileExists_eq_isSome, hreadp]
    rfl

/-- Witness for the amended C7 at a concrete state holding a snapshot. -/
theorem failedFetchPreservesSnapshotAtRotatedPathWitness :
    fileExists (FS.mk [("/w/file_list.json", .articles [⟨"id1", "KB1", "v1"⟩])] ["/w"])
        (pathResolve "/w" ("file_list" ++ ".json")) = true
    ∧ (doListingWithChanges "/w" "file_list" "file_changes" none
          (FS.mk [("/w/file_list.json", .articles [⟨"id1", "KB1", "v1"⟩])] ["/w"])
        = (renameFileFS (FS.mk [("/w/file_list.json", .articles [⟨"id1", "KB1", "v1"⟩])] ["/w"])
            (pathResolve "/w" ("file_list" ++ ".json"))
            (pathResolve "/w" ("file_list" ++ ".json") ++ ".old"), none)
      ∧ readFileFS
          (renameFileFS (FS.mk [("/w/file_list.json", .articles [⟨"id1", "KB1", "v1"⟩])] ["/w"])
            (pathResolve "/w" ("file_list" ++ ".json"))
            (pathResolve "/w" ("file_list" ++ ".json") ++ ".old"))
          (pathResolve "/w" ("file_list" ++ ".json") ++ ".old")
        = readFileFS (FS.mk [("/w/file_list.json", .articles [⟨"id1", "KB1", "v1"⟩])] ["/w"])
            (pathResolve "/w" ("file_list" ++ ".json"))
      ∧ fileExists
          (renameFileFS (FS.mk [("/w/file_list.json", .articles [⟨"id1", "KB1", "v1"⟩])] ["/w"])
            (pathResolve "/w" ("file_list" ++ ".json"))
            (pathResolve "/w" ("file_list" ++ ".json") ++ ".old"))
          (pathResolve "/w" ("file_list" ++ ".json")) = false) :=
  ⟨by decide,
    failedFetchPreservesSnapshotAtRotatedPath
      (FS.mk [("/w/file_list.json", .articles [⟨"id1", "KB1", "v1"⟩])] ["/w"])
      "/w" "file_list" "file_changes" (by decide)⟩

/-- C8.  The effective configuration `mainExec` computes — defaults merged
with the default profile merged with the selected profile — never
incorporates the parsed command-line arguments object: `mergeData` declares
three parameters and the `args` object is passed as the ignored fourth
argument, so any two argument objects yield the same effective
configuration, which equals the three-way `mergeData` merge. -/
theorem effectiveConfigIgnoresCliArgs (d q r a1 a2 : Config) :
    mainExecEffectiveConfig d q r a1 = mainExecEffectiveConfig d q r a2
    ∧ mainExecEffectiveConfig d q r a1 = mergeData d q r :=
  ⟨rfl, rfl⟩

/-- C10.  `closeSession` is idempotent: with no directory squatting on the
lock path, closing a session always succeeds (in particular it throws no
error and changes nothing when no lock file exists), closing twice yields the
same state as closing once, and after any call the lock file is absent. -/
theorem closeSessionIdempotent (fs : FS) (dir : String)
    (h : dirExists fs (pathJoin dir LOCK_FILE_NAME) = false) :
    closeSession fs dir = .ok (removeFileFS fs (pathJoin dir LOCK_FILE_NAME))
    ∧ closeSession (removeFileFS fs (pathJoin dir LOCK_FILE_NAME)) dir
        = .ok (removeFileFS fs (pathJoin dir LOCK_FILE_NAME))
    ∧ fileExists (removeFileFS fs (pathJoin dir LOCK_FILE_NAME))
        (pathJoin dir LOCK_FILE_NAME) = false
    ∧ (fileExists fs (pathJoin dir LOCK_FILE_NAME) = false
        → removeFileFS fs (pathJoin dir LOCK_FILE_NAME) = fs) := by
  set p := pathJoin dir LOCK_FILE_NAME with hp
  have hclosed : ∀ g : FS, dirExists g p = false → fileExists g p = false →
      closeSession g dir = .ok g := by
    intro g hd hf
    have hex : existsSync g p = false := by
      unfold existsSync
      rw [hd, hf]
      rfl
    unfold closeSession
    dsimp only
    rw [← hp, hex]
    rfl
  by_cases hf : fileExists fs p = true
  · have h1 : closeSession fs dir = .ok (removeFileFS fs p) := by
      have hex : existsSync fs p = true := by
        unfold existsSync
        rw [hf]
        rfl
      unfold closeSession
      dsimp only
      rw [← hp, hex]
      unfold unlinkSyncFS
      rw [if_pos hf]
      rfl
    refine ⟨h1, ?_, fileExists_removeFileFS_self fs p, ?_⟩
    · exact hclosed (removeFileFS fs p)
        (by rw [dirExists_removeFileFS]; exact h)
        (fileExists_removeFileFS_self fs p)
    · intro hffalse
      rw [hf] at hffalse
      exact Bool.noConfusion hffalse
  · have hf2 : fileExists fs p = false := by simpa using hf
    have hid : removeFileFS fs p = fs := removeFileFS_of_not_exists fs p hf2
    refine ⟨?_, ?_, ?_, fun _ => hid⟩
    · rw [hid]
      exact hclosed fs h hf2
    · rw [hid]
      exact hclosed fs h hf2
    · rw [hid]
      exact hf2

/-- Witness for C10 at a concrete state holding a lock file. -/
theorem closeSessionIdempotentWitness :
    dirExists (FS.mk [("/w/operation_in_progress.lock", .text "uuid")] ["/w"])
        (pathJoin "/w" LOCK_FILE_NAME) = false
    ∧ (closeSession (FS.mk [("/w/operation_in_progress.lock", .text "uuid")] ["/w"]) "/w"
        = .ok (removeFileFS (FS.mk [("/w/operation_in_progress.lock", .text "uuid")] ["/w"])
            (pathJoin "/w" LOCK_FILE_NAME))
      ∧ closeSession
          (removeFileFS (FS.mk [("/w/operation_in_progress.lock", .text "uuid")] ["/w"])
            (pathJoin "/w" LOCK_FILE_NAME)) "/w"
        = .ok (removeFileFS (FS.mk [("/w/operation_in_progress.lock", .text "uuid")] ["/w"])
            (pathJoin "/w" LOCK_FILE_NAME))
      ∧ fileExists
          (removeFileFS (FS.mk [("/w/operation_in_progress.lock", .text "uuid")] ["/w"])
            (pathJoin "/w" LOCK_FILE_NAME))
          (pathJoin "/w" LOCK_FILE_NAME) = false
      ∧ (fileExists (FS.mk [("/w/operation_in_progress.lock", .text "uuid")] ["/w"])
            (pathJoin "/w" LOCK_FILE_NAME) = false
          → removeFileFS (FS.mk [("/w/operation_in_progress.lock", .text "uuid")] ["/w"])
              (pathJoin "/w" LOCK_FILE_NAME)
            = FS.mk [("/w/operation_in_progress.lock", .text "uuid")] ["/w"])) :=
  ⟨by decide,
    closeSessionIdempotent (FS.mk [("/w/operation_in_progress.lock", .text "uuid")] ["/w"])
      "/w" (by decide)⟩

/-! ## Concrete full-pipeline runs refuting C1, C2 and C3

The deletion pass of `doChangesWithFiles` hands `removeFolderContents`
patterns of the form `path.join(pdfHome, number + ".pdf")` — absolute paths —
while `removeFolderContents` globs them with `cwd: folderPath` and joins each
match back onto `folderPath`.  An absolute pattern is matched absolutely and
returned absolute, so the re-join doubles the prefix
(`/work` + `/work/PDFs/x.pdf` = `/work/work/PDFs/x.pdf`), `lstat` throws on
the nonexistent path, the `catch` swallows it, and the pass deletes nothing.
In newer-only mode the pass is skipped by design, but when the report has no
added or updated article `fetchArticles` is never invoked either, so the
folder-clearing `resetTarget` path never runs and prior files survive. -/

/-- Prior state for the C1 run: output folder matching the old snapshot
(`KB1`, `KB2`), old snapshot persisted, article `KB2` since removed
remotely. -/
def c1FS : FS :=
  { files := [("/work/file_list.json", .articles [⟨"id1", "KB1", "v1"⟩, ⟨"id2", "KB2", "v1"⟩]),
              ("/work/PDFs/KB1.pdf", .pdf "stale"),
              ("/work/PDFs/KB2.pdf", .pdf "stale")]
    dirs := ["/work", "/work/PDFs"] }

/-- The C1 run: full-reconcile `list_changes_files` against the new snapshot
(only `KB1`, unchanged), with every render succeeding. -/
def c1Run : FS :=
  doChangesWithFiles "/work" "file_list" "file_changes" false
    (some [⟨"id1", "KB1", "v1"⟩]) (fun _ => true) 1 c1FS

/-- C1 refutation.  The prior output folder matches the old snapshot and
every render succeeds, the run computes and persists the report
(`removed = [KB2]`), yet afterwards the output folder still holds `KB2.pdf`:
its file-name set `[KB1.pdf, KB2.pdf]` is not the new snapshot's `number` set
(`KB1` only) — the removal pass deleted nothing. -/
theorem fullModeRunLeavesRemovedPdf :
    readdirFS c1FS "/work/PDFs" = ["KB1.pdf", "KB2.pdf"]
    ∧ readFileFS c1Run "/work/file_changes.json"
        = some (.changes { added := [], updated := [], removed := ["KB2"] })
    ∧ readdirFS c1Run "/work/PDFs" = ["KB1.pdf", "KB2.pdf"]
    ∧ ([⟨"id1", "KB1", "v1"⟩] : List Article).map (fun a => a.number) = ["KB1"] := by
  decide

/-- Prior state for the C2 run: one article, persisted old snapshot at
version `v1`, its stale PDF present. -/
def c2FS : FS :=
  { files := [("/work/file_list.json", .articles [⟨"id1", "KB1", "v1"⟩]),
              ("/work/PDFs/KB1.pdf", .pdf "stale")]
    dirs := ["/work", "/work/PDFs"] }

/-- The C2 run: the article was updated remotely to `v2`; its re-render
fails, which the claim's pre-emptive deletion is exactly meant to cover. -/
def c2Run : FS :=
  doChangesWithFiles "/work" "file_list" "file_changes" false
    (some [⟨"id1", "KB1", "v2"⟩]) (fun _ => false) 1 c2FS

/-- C2 refutation.  The run reports `updated = [KB1]`, and the deletion pass
is invoked with exactly the pattern the code builds
(`path.join(pdfHome, "KB1.pdf")` globbed against `folderPath`) — yet that
call leaves the state unchanged, and after the whole run (re-render failing)
the stale `KB1.pdf` is still present: the claimed pre-render deletion never
happened. -/
theorem preemptiveDeletionPassDeletesNothing :
    readFileFS c2Run "/work/file_changes.json"
        = some (.changes { added := [], updated := ["KB1"], removed := [] })
    ∧ removeFolderContents c2FS "/work"
        (.strList [pathJoin (pathJoin "/work" "PDFs") ("KB1" ++ ".pdf")]) = c2FS
    ∧ readFileFS c2Run "/work/PDFs/KB1.pdf" = some (.pdf "stale") := by
  decide

/-- Prior state for the C3 run: output folder holding `KB5.pdf` and
`KB9.pdf` from earlier runs, old snapshot listing both articles. -/
def c3FS : FS :=
  { files := [("/d/file_list.json",
               .articles [⟨"i", "KB5", "v1"⟩, ⟨"j", "KB9", "v1"⟩]),
              ("/d/PDFs/KB5.pdf", .pdf "stale"),
              ("/d/PDFs/KB9.pdf", .pdf "stale")]
    dirs := ["/d", "/d/PDFs"] }

/-- The C3 run: newer-only `list_changes_files`; remotely `KB9` was removed
and nothing was added or updated, so every render vacuously succeeds. -/
def c3Run : FS :=
  doChangesWithFiles "/d" "file_list" "file_changes" true
    (some [⟨"i", "KB5", "v1"⟩]) (fun _ => true) 1 c3FS

/-- C3 refutation.  The newer-only run produces the report
(`removed = [KB9]`, `added = updated = []`), after which the output folder
still holds both `KB9.pdf` — named for a removed-bucket number — and the
leftover `KB5.pdf`, so the folder's file-name set is not contained in
`added ∪ updated` (which is empty). -/
theorem newerOnlyRunKeepsUnrelatedAndRemovedPdfs :
    readFileFS c3Run "/d/file_changes.json"
        = some (.changes { added := [], updated := [], removed := ["KB9"] })
    ∧ readdirFS c3Run "/d/PDFs" = ["KB5.pdf", "KB9.pdf"]
    ∧ fileExists c3Run "/d/PDFs/KB9.pdf" = true := by
  decide

end PdFetch
